import Mathlib

/-!
Verification of the EFPL interpreter (`src/efpl.py`) against its
natural-language specification.

The embedding follows the Python source class by class:

* `Expr` is the sum of the AST node classes `Id`, `Num`, `Str`, `List`,
  `Fn`, `Cases` and `App`.  The tuple subclasses `List`, `Args` and `Pars`
  share `tuple` data, `tuple` equality and the inherited/overridden
  `List.eval`, so a single `list` constructor (plus plain Lean lists for
  argument and parameter sequences) represents all of them; the distinction
  between them matters only for display, which no theorem below needs
  except for `Str`, modelled separately by `strStr`.
* `Num` wraps a Python `float`; the claims only exercise exact small
  values, so doubles are modelled by rationals.
* Python exceptions are modelled by the `Error` type and `Except` results;
  exhaustion of the host call stack (`RecursionError`) corresponds to
  running out of `fuel`.
-/

namespace Efpl

/-- AST node kinds of `efpl.py`.  `fn` stores only parameters and body,
exactly as `Fn.__init__` does: there is no captured definition-time
environment.  `cases` holds the `(cond, body)` pairs of the `Case` objects
inside a `Cases` tuple.  `app` holds the unevaluated callee (`self.obj`)
and the elements of the `Args` tuple (`self.args`); `App_infix` differs
from `App` only in display and so is not a separate constructor. -/
inductive Expr where
  | id (name : String)
  | num (v : Rat)
  | str (text : String)
  | list (elems : List Expr)
  | fn (pars : List String) (body : Expr)
  | cases (cs : List (Expr × Expr))
  | app (obj : Expr) (args : List Expr)

/-- An environment ("table") is the Python `dict` mapping AST values to
AST values.  It is modelled as an association list in which the
front-most binding for a key wins; insertions that must override are
therefore prepended. -/
abbrev Env := List (Expr × Expr)

/-- The Python exceptions the interpreter can raise.
`notCallable` is `Expr.apply`, `arityError` is raised by `Pars.table`,
`noMatch` by `Cases.eval`; `indexError`, `typeError`, `zeroDivision`,
`recursionError`, `nameError` and `attributeError` are the host failures
(`IndexError`, `TypeError`, `ZeroDivisionError`, `RecursionError`,
`NameError`, `AttributeError`). -/
inductive Error where
  | notCallable (obj : Expr) (args : List Expr)
  | arityError (pars : List String) (args : List Expr)
  | noMatch (table : Env) (cs : List (Expr × Expr))
  | indexError
  | typeError
  | zeroDivision
  | recursionError
  | nameError (missing : String)
  | attributeError (attr : String)

mutual
/-- Python `==` on AST node values.  `Id` and `Str` both subclass `str`
and compare by their text (so `Id("true") == Str("true")` is `True` in the
source); `Num` subclasses `float` and compares by value; the tuple
subclasses compare elementwise; everything else (`Fn`, `Case`, `App`
objects) falls back to object identity, so two structurally distinct
values are unequal — in a value model this is `false` (the source never
compares an object with itself where the claims are concerned). -/
def exprEq : Expr → Expr → Bool
  | .id a, .id b => a == b
  | .id a, .str b => a == b
  | .str a, .id b => a == b
  | .str a, .str b => a == b
  | .num a, .num b => a == b
  | .list a, .list b => exprEqList a b
  | _, _ => false

/-- Elementwise Python `==` of two tuples of AST nodes. -/
def exprEqList : List Expr → List Expr → Bool
  | [], [] => true
  | a :: as, b :: bs => exprEq a b && exprEqList as bs
  | _, _ => false
end

/-- Python `<` on strings: lexicographic comparison of code points, a
proper prefix being smaller. -/
def charListLt : List Char → List Char → Bool
  | _, [] => false
  | [], _ :: _ => true
  | a :: as, b :: bs => if a = b then charListLt as bs else decide (a < b)

/-- Python `<` on the underlying `str` of `Id`/`Str` nodes. -/
def strLt (a b : String) : Bool :=
  charListLt a.data b.data

mutual
/-- Python `<` on AST node values: numeric on `Num`, lexicographic on the
`str` subclasses `Id`/`Str`, elementwise-lexicographic on tuples, and a
host `TypeError` on any mixed or unordered pair (e.g. a number against a
string, or two `Fn` objects). -/
def exprLt : Expr → Expr → Except Error Bool
  | .num a, .num b => .ok (decide (a < b))
  | .id a, .id b => .ok (strLt a b)
  | .id a, .str b => .ok (strLt a b)
  | .str a, .id b => .ok (strLt a b)
  | .str a, .str b => .ok (strLt a b)
  | .list a, .list b => exprLtList a b
  | _, _ => .error .typeError

/-- Python `<` on tuples: skip equal prefixes, then compare the first
differing elements; a tuple that runs out first is smaller. -/
def exprLtList : List Expr → List Expr → Except Error Bool
  | [], [] => .ok false
  | [], _ :: _ => .ok true
  | _ :: _, [] => .ok false
  | a :: as, b :: bs => if exprEq a b then exprLtList as bs else exprLt a b
end

/-- Python `<=`: equal or less.  On every type the interpreter can
compare this agrees with the host operator (`float`, `str` and `tuple`
orders are total where defined, and mixed pairs raise `TypeError` from
the `<` comparison). -/
def exprLe (a b : Expr) : Except Error Bool :=
  if exprEq a b then .ok true else exprLt a b

/-- Python `>`: the reversed `<`. -/
def exprGt (a b : Expr) : Except Error Bool :=
  exprLt b a

/-- Python `>=`: the reversed `<=`. -/
def exprGe (a b : Expr) : Except Error Bool :=
  exprLe b a

/-- The ten fixed operator identifiers of `App.eval`, in source order. -/
inductive Op where
  | eq | ne | le | ge | lt | gt | add | sub | mul | div

/-- Which operator, if any, a raw identifier text names; mirrors the
`case Id('==') ... case Id('/')` patterns of `App.eval`. -/
def opOfString (s : String) : Option Op :=
  if s == "==" then some .eq
  else if s == "<>" then some .ne
  else if s == "<=" then some .le
  else if s == ">=" then some .ge
  else if s == "<" then some .lt
  else if s == ">" then some .gt
  else if s == "+" then some .add
  else if s == "-" then some .sub
  else if s == "*" then some .mul
  else if s == "/" then some .div
  else none

/-- The `match self.obj` dispatch of `App.eval` pattern-matches the
*unevaluated* callee against `Id(op)` class patterns: only a literal `Id`
node can take the operator path (a `Str` is not an instance of `Id`). -/
def opOfExpr : Expr → Option Op
  | .id s => opOfString s
  | _ => none

/-- The helper `conv_b` of `App.eval`: a host boolean becomes the identifier
`true` or `false`. -/
def conv_b (b : Bool) : Expr :=
  if b then .id "true" else .id "false"

/-- The arithmetic arms of `App.eval` wrap the host result in `Num(...)`;
on two `Num` operands this is float (here: rational) arithmetic.  On any
other operands the host raises (`TypeError`, or `ValueError` inside the
`Num()` conversion after a `str`/`tuple` concatenation), modelled
uniformly as `typeError`; no claim exercises those inputs. -/
def asNum : Expr → Except Error Rat
  | .num v => .ok v
  | _ => .error .typeError

/-- The operator arms of `App.eval`, applied to the *evaluated* argument
tuple.  Exactly `args[0]` and `args[1]` are read: fewer than two
arguments is a host `IndexError`, and any arguments beyond the first two
are never inspected.  Division by zero is the host `ZeroDivisionError`. -/
def opApply (op : Op) (args : List Expr) : Except Error Expr :=
  match args with
  | a :: b :: _ =>
    match op with
    | .eq => .ok (conv_b (exprEq a b))
    | .ne => .ok (conv_b (!exprEq a b))
    | .le => (exprLe a b).map conv_b
    | .ge => (exprGe a b).map conv_b
    | .lt => (exprLt a b).map conv_b
    | .gt => (exprGt a b).map conv_b
    | .add => do .ok (.num ((← asNum a) + (← asNum b)))
    | .sub => do .ok (.num ((← asNum a) - (← asNum b)))
    | .mul => do .ok (.num ((← asNum a) * (← asNum b)))
    | .div => do
        let x ← asNum a
        let y ← asNum b
        if y == 0 then .error .zeroDivision else .ok (.num (x / y))
  | _ => .error .indexError

/-- Membership/lookup in the environment `dict`, keyed by Python `==`
(`self in table` / `table[self]` in `Expr.eval`). -/
def lookupEnv : Env → Expr → Option Expr
  | [], _ => none
  | (k, v) :: rest, e => if exprEq e k then some v else lookupEnv rest e

/-- Parameter binding, `Pars.table`: reject a length mismatch, otherwise `dict(zip(pars,
args))`.  The zip is reversed so that, as in a Python dict built from a
sequence of pairs, a later pair for the same key overrides an earlier
one under the front-first `lookupEnv`. -/
def parsTable (pars : List String) (args : List Expr) : Except Error Env :=
  if pars.length ≠ args.length then .error (.arityError pars args)
  else .ok (((pars.map Expr.id).zip args).reverse)

/-- Python dict union `table | new`: bindings of `new` win, modelled by
putting them in front of the association list. -/
def unionEnv (table new : Env) : Env :=
  new ++ table

/-- Element mapping, `List.eval` (inherited by `Args`): evaluate every element under the
same table, preserving order and length; the first failing element
aborts.  The element evaluator is passed in so that each recursion level
of `eval` can supply itself one fuel step down. -/
def evalElems (ev : Expr → Env → Except Error Expr) :
    List Expr → Env → Except Error (List Expr)
  | [], _ => .ok []
  | e :: es, table =>
    match ev e table with
    | .error err => .error err
    | .ok v =>
      match evalElems ev es table with
      | .error err => .error err
      | .ok vs => .ok (v :: vs)

/-- Guard selection, `Cases.eval` together with `Case.matches`: walk the cases in order;
evaluate each condition, and for the first one whose value equals
`Id('true')` evaluate and return that body; raise `NoMatchError` with the
table and the whole `Cases` tuple (`all`) when the walk is exhausted. -/
def evalCasesFrom (ev : Expr → Env → Except Error Expr)
    (all : List (Expr × Expr)) :
    List (Expr × Expr) → Env → Except Error Expr
  | [], table => .error (.noMatch table all)
  | (cond, body) :: rest, table =>
    match ev cond table with
    | .error err => .error err
    | .ok v =>
      if exprEq v (.id "true") then ev body table
      else evalCasesFrom ev all rest table

/-- Application dispatch, `Fn.apply` and the `Expr.apply` fallback: a `Fn` value binds its
parameters over the caller's table (`table | self.pars.table(args)`) and
evaluates its body there; applying any other value raises the
not-callable error. -/
def applyVal (ev : Expr → Env → Except Error Expr)
    (obj : Expr) (args : List Expr) (table : Env) : Except Error Expr :=
  match obj with
  | .fn pars body =>
    match parsTable pars args with
    | .error err => .error err
    | .ok pt => ev body (unionEnv table pt)
  | _ => .error (.notCallable obj args)

/-- The evaluator, `Expr.eval` and its overrides, with explicit fuel standing for the
host call stack.  `Id`, `Num`, `Str` and `Fn` use the inherited
`Expr.eval`: the bound value if the node is a key of the table, else the
node itself.  `List` maps evaluation over its elements.  `Cases` walks
its guard cases.  `App.eval` evaluates the callee (line 91 of the
source), then the arguments (line 92), then matches the *unevaluated*
callee against the operator identifiers and otherwise applies the
evaluated callee. -/
def eval : Nat → Expr → Env → Except Error Expr
  | 0, _, _ => .error .recursionError
  | fuel + 1, e, table =>
    match e with
    | .list es =>
      match evalElems (eval fuel) es table with
      | .error err => .error err
      | .ok vs => .ok (.list vs)
    | .cases cs => evalCasesFrom (eval fuel) cs cs table
    | .app o argsE =>
      match eval fuel o table with
      | .error err => .error err
      | .ok obj =>
        match evalElems (eval fuel) argsE table with
        | .error err => .error err
        | .ok argVals =>
          match opOfExpr o with
          | some op => opApply op argVals
          | none => applyVal (eval fuel) obj argVals table
    | _ => .ok ((lookupEnv table e).getD e)

/-- Entry-point evaluation, `Prog.eval` with its default argument: evaluate the application
`App(Id('main'), Args())` against the definition table. -/
def progEval (defs : Env) (fuel : Nat) : Except Error Expr :=
  eval fuel (.app (.id "main") []) defs

/-- The AST-builder callback `T.fn_guards` for the anonymous guarded
function atom `@(p1,...,pn){ guards }`.  The source line is
`return Fn_guards(a[0], a[1])`, but no class `Fn_guards` is defined
anywhere in the program (named guarded definitions instead build a plain
`Fn` via `dfn_guards = dfn_simple`), so the callback raises
`NameError: name 'Fn_guards' is not defined` on every input. -/
def fn_guards (_pars : List String) (_guards : List (Expr × Expr)) :
    Except Error Expr :=
  .error (.nameError "Fn_guards")

/-- String display, `Str.__str__`, the display form of a `String` node.  The source is
`return '"%s"' % super().self`; a `super` proxy has no attribute named
`self` (the intended call was `super().__str__()`), so every invocation
raises `AttributeError` instead of producing the quoted text. -/
def strStr (_text : String) : Except Error String :=
  .error (.attributeError "self")

/-- The node kinds that use the inherited `Expr.eval` self-evaluation
and are produced as values by the interpreter: identifiers, numbers and
strings.  (`Fn` also inherits `Expr.eval`, but `List` overrides it.) -/
def selfEvalKind : Expr → Bool
  | .id _ => true
  | .num _ => true
  | .str _ => true
  | _ => false


/-! ## Claim C1: the self-evaluation rule -/

/-- C1 counterexample: a `List` node does not follow the self-evaluation
rule.  Here the list `[1]` is structurally equal to a key of the
environment (bound to `5`), yet `List.eval` never consults the table for
the node itself — it maps evaluation over the elements and returns the
list unchanged, not the bound value. -/
theorem c1_counterexample :
    lookupEnv [(Expr.list [Expr.num 1], Expr.num 5)] (Expr.list [Expr.num 1])
      = some (Expr.num 5) ∧
    eval 2 (Expr.list [Expr.num 1]) [(Expr.list [Expr.num 1], Expr.num 5)]
      = .ok (Expr.list [Expr.num 1]) ∧
    Expr.list [Expr.num 1] ≠ Expr.num 5 := by
  refine ⟨?_, rfl, by simp⟩
  simp [lookupEnv, exprEq, exprEqList]

/-- C1 (amended): the self-evaluation rule holds for identifier, number
and string nodes — the bound value when the node is structurally equal to
a key of the environment, the node itself otherwise — but not for list
nodes, which evaluate by mapping evaluation over their elements and never
look themselves up. -/
theorem c1_theorem (fuel : Nat) (v : Expr) (E : Env)
    (h : selfEvalKind v = true) :
    eval (fuel + 1) v E = .ok ((lookupEnv E v).getD v) := by
  cases v <;> first | rfl | simp [selfEvalKind] at h

/-- C1 witness: a bound identifier evaluates to its binding. -/
theorem c1_witness :
    selfEvalKind (Expr.id "x") = true ∧
    eval 1 (Expr.id "x") [(Expr.id "x", Expr.num 7)]
      = .ok ((lookupEnv [(Expr.id "x", Expr.num 7)] (Expr.id "x")).getD
          (Expr.id "x")) :=
  ⟨rfl, c1_theorem 0 (Expr.id "x") [(Expr.id "x", Expr.num 7)] rfl⟩

/-! ## Claim C5: arity enforcement -/

/-- C5: applying a `Fn` whose parameter count differs from the argument
count fails with the arity error raised by `Pars.table`, carrying the
expected parameter list and the actual argument list (hence both
lengths).  The result does not depend on the body or on the fuel — in
particular the theorem holds at fuel `0`, where any body evaluation would
have failed with `recursionError` instead: the body is never evaluated. -/
theorem c5_theorem (fuel : Nat) (pars : List String) (body : Expr)
    (argVals : List Expr) (E : Env)
    (h : pars.length ≠ argVals.length) :
    applyVal (eval fuel) (.fn pars body) argVals E
      = .error (.arityError pars argVals) := by
  simp [applyVal, parsTable, h]

/-- C5 witness: a 2-parameter function applied to one argument fails with
the arity error, even with no fuel for body evaluation. -/
theorem c5_witness :
    applyVal (eval 0) (.fn ["x", "y"] (Expr.id "x")) [Expr.num 1] []
      = .error (.arityError ["x", "y"] [Expr.num 1]) :=
  c5_theorem 0 ["x", "y"] (Expr.id "x") [Expr.num 1] [] (by decide)

/-! ## Claim C6: operator arity -/

/-- C6 counterexample: the claim says an operator applied to an argument
list whose length is not two is an error, but the source reads only
`args[0]` and `args[1]` — a third argument is silently ignored and
`+(1, 2, 100)` evaluates to `3`. -/
theorem c6_counterexample :
    eval 2 (.app (Expr.id "+") [Expr.num 1, Expr.num 2, Expr.num 100]) []
      = .ok (Expr.num 3) := by
  have h : opOfExpr (Expr.id "+") = some Op.add := rfl
  norm_num [eval, evalElems, opApply, lookupEnv, asNum, h, bind,
    Except.bind]

/-- C6 (amended): an operator applied to fewer than two argument values
fails (with the host index-out-of-range error), while arguments beyond
the first two are silently ignored: the result on `a :: b :: rest` is the
result on `[a, b]` for every `rest`. -/
theorem c6_theorem :
    (∀ (op : Op) (args : List Expr), args.length < 2 →
       opApply op args = .error .indexError) ∧
    (∀ (op : Op) (a b : Expr) (rest : List Expr),
       opApply op (a :: b :: rest) = opApply op [a, b]) := by
  refine ⟨?_, ?_⟩
  · intro op args h
    match args with
    | [] => rfl
    | [x] => rfl
    | x :: y :: rest => simp only [List.length_cons] at h; omega
  · intro op a b rest
    rfl

/-- C6 witness: `+` with no arguments is an index error; `+` with three
arguments behaves as with the first two. -/
theorem c6_witness :
    opApply .add [] = .error .indexError ∧
    opApply .add [Expr.num 1, Expr.num 2, Expr.num 100]
      = opApply .add [Expr.num 1, Expr.num 2] :=
  ⟨c6_theorem.1 .add [] (by decide),
   c6_theorem.2 .add (Expr.num 1) (Expr.num 2) [Expr.num 100]⟩

/-! ## Claim C8: anonymous guarded functions -/

/-- C8: evaluating the `fn_guards` transformer callback on any anonymous
guarded function fails with the `NameError` for the undefined class
`Fn_guards`, instead of producing the function value the specification
describes. -/
theorem c8_theorem :
    fn_guards ["x"] [(Expr.id "true", Expr.num 1)]
      = .error (.nameError "Fn_guards") :=
  rfl

/-! ## Claim C9: string display -/

/-- C9: converting a `String` node to its display form does not yield its
text with surrounding quotes; `Str.__str__` evaluates `super().self`,
which raises `AttributeError` on every input. -/
theorem c9_theorem :
    strStr "hi" = .error (.attributeError "self") :=
  rfl

/-! ## Claim C10: missing `main` definition -/

/-- C10: when the definition table has no binding for the identifier
`main`, entry-point evaluation does not fail with an undefined-name
error: `main` self-evaluates to itself, and applying that identifier to
the empty argument list raises the not-callable error naming `Id('main')`
and `()` — the same `Expr.apply` error as applying any non-function
value. -/
theorem c10_theorem (fuel : Nat) (defs : Env)
    (h : lookupEnv defs (Expr.id "main") = none) :
    progEval defs (fuel + 2)
      = .error (.notCallable (Expr.id "main") []) := by
  simp [progEval, eval, evalElems, applyVal, opOfExpr, opOfString, h]

/-- C10 witness: a table defining only `f` has no `main`; running the
program fails with the not-callable error on the identifier `main`. -/
theorem c10_witness :
    progEval [(Expr.id "f", Expr.num 1)] 2
      = .error (.notCallable (Expr.id "main") []) :=
  c10_theorem 0 [(Expr.id "f", Expr.num 1)] rfl

/-! ## Claim C3: operators are not shadowable -/

/-- C3: for every application whose unevaluated callee is one of the ten
operator identifiers, the result is the operator applied to the evaluated
arguments — uniformly in the environment, so no binding for that
identifier can change the result.  (The callee identifier is still
*evaluated* first, per the source, but its value is discarded on this
path; identifier evaluation never fails, so at sufficient fuel the
dispatch sees only the unevaluated callee.) -/
theorem c3_theorem (fuel : Nat) (s : String) (op : Op) (argsE : List Expr)
    (env : Env) (h : opOfString s = some op) :
    eval (fuel + 2) (.app (Expr.id s) argsE) env
      = (evalElems (eval (fuel + 1)) argsE env).bind (opApply op) := by
  have hop : opOfExpr (Expr.id s) = some op := h
  show (match evalElems (eval (fuel + 1)) argsE env with
        | .error err => .error err
        | .ok argVals =>
          match opOfExpr (Expr.id s) with
          | some op => opApply op argVals
          | none =>
            applyVal (eval (fuel + 1))
              ((lookupEnv env (Expr.id s)).getD (Expr.id s)) argVals env)
      = (evalElems (eval (fuel + 1)) argsE env).bind (opApply op)
  simp only [hop]
  cases evalElems (eval (fuel + 1)) argsE env <;> rfl

/-- C3 witness: with `+` rebound in the environment, `1 + 2` still
dispatches to the fixed operator table and yields `3`. -/
theorem c3_witness :
    eval 2 (.app (Expr.id "+") [Expr.num 1, Expr.num 2])
        [(Expr.id "+", Expr.num 99)]
      = (evalElems (eval 1) [Expr.num 1, Expr.num 2]
          [(Expr.id "+", Expr.num 99)]).bind (opApply .add) ∧
    eval 2 (.app (Expr.id "+") [Expr.num 1, Expr.num 2])
        [(Expr.id "+", Expr.num 99)]
      = .ok (Expr.num 3) := by
  refine ⟨c3_theorem 0 "+" Op.add [Expr.num 1, Expr.num 2]
    [(Expr.id "+", Expr.num 99)] rfl, ?_⟩
  norm_num [eval, evalElems, opApply, lookupEnv, asNum, bind, Except.bind,
    show opOfExpr (Expr.id "+") = some Op.add from rfl,
    show exprEq (Expr.num 1) (Expr.id "+") = false from rfl,
    show exprEq (Expr.num 2) (Expr.id "+") = false from rfl]

/-! ## Claim C7: application evaluation order -/

/-- Application evaluation in the order claim C7 states it: the argument
list first, the callee afterwards and only on the non-operator path.
This definition follows the claim text, not the source, and is compared
against `eval` below. -/
def evalAppArgsFirst (fuel : Nat) (o : Expr) (argsE : List Expr)
    (env : Env) : Except Error Expr :=
  match evalElems (eval fuel) argsE env with
  | .error err => .error err
  | .ok argVals =>
    match opOfExpr o with
    | some op => opApply op argVals
    | none =>
      match eval fuel o env with
      | .error err => .error err
      | .ok obj => applyVal (eval fuel) obj argVals env

/-- An application whose evaluation fails: `Num(1)` applied to no
arguments is not callable. -/
def badCallee : Expr := .app (Expr.num 1) []

/-- An application whose evaluation fails differently: `Num(2)` applied
to no arguments. -/
def badArg : Expr := .app (Expr.num 2) []

/-- C7 counterexample: the source evaluates the callee before the
argument list.  With a callee whose evaluation fails on `Num(1)` and an
argument whose evaluation fails on `Num(2)`, the interpreter reports the
callee's error; under the order the claim states (arguments first) the
result would be the argument's error, as `evalAppArgsFirst` shows — and
the two errors differ. -/
theorem c7_counterexample :
    eval 4 (.app badCallee [badArg]) []
      = .error (.notCallable (Expr.num 1) []) ∧
    evalAppArgsFirst 3 badCallee [badArg] []
      = .error (.notCallable (Expr.num 2) []) ∧
    Error.notCallable (Expr.num 1) [] ≠ Error.notCallable (Expr.num 2) [] := by
  refine ⟨rfl, rfl, by norm_num⟩

/-- C7 (amended): for every application the callee expression is
evaluated first under the current environment — unconditionally, even
when the unevaluated callee is an operator identifier, in which case the
resulting value is discarded — and the argument list is evaluated
afterwards, left to right: a failure of the callee pre-empts argument
evaluation, and a failure of the arguments pre-empts application. -/
theorem c7_theorem (fuel : Nat) (o : Expr) (argsE : List Expr) (env : Env) :
    (∀ err, eval fuel o env = .error err →
       eval (fuel + 1) (.app o argsE) env = .error err) ∧
    (∀ v err, eval fuel o env = .ok v →
       evalElems (eval fuel) argsE env = .error err →
       eval (fuel + 1) (.app o argsE) env = .error err) := by
  refine ⟨?_, ?_⟩
  · intro err h
    simp [eval, h]
  · intro v err h1 h2
    simp [eval, h1, h2]

/-- C7 witness: the callee's failure is reported even though an argument
would also fail, and a failing argument aborts a well-callee
application. -/
theorem c7_witness :
    eval 4 (.app badCallee [badArg]) []
      = .error (.notCallable (Expr.num 1) []) ∧
    eval 3 (.app (Expr.id "f") [badArg]) []
      = .error (.notCallable (Expr.num 2) []) :=
  ⟨(c7_theorem 3 badCallee [badArg] []).1 (.notCallable (Expr.num 1) []) rfl,
   (c7_theorem 2 (Expr.id "f") [badArg] []).2 (Expr.id "f")
     (.notCallable (Expr.num 2) []) rfl rfl⟩

/-! ## Claim C4: guard selection -/

/-- Walking the guard cases skips every case whose condition evaluates to
a value not equal to `Id('true')`. -/
theorem evalCasesFrom_skip (ev : Expr → Env → Except Error Expr)
    (all pre rest : List (Expr × Expr)) (env : Env)
    (h : ∀ c ∈ pre, ∃ v, ev c.1 env = .ok v ∧ exprEq v (Expr.id "true") = false) :
    evalCasesFrom ev all (pre ++ rest) env = evalCasesFrom ev all rest env := by
  induction pre with
  | nil => rfl
  | cons c cs ih =>
    obtain ⟨cond, body⟩ := c
    obtain ⟨v, hv, hne⟩ := h (cond, body) (by simp)
    have : ∀ c ∈ cs, ∃ v, ev c.1 env = .ok v ∧ exprEq v (Expr.id "true") = false :=
      fun c hc => h c (by simp [hc])
    simp [evalCasesFrom, hv, hne, ih this]

/-- When every case in the walk fails, the walk ends in the no-match
error carrying the table and the full guard list. -/
theorem evalCasesFrom_exhausted (ev : Expr → Env → Except Error Expr)
    (all cs : List (Expr × Expr)) (env : Env)
    (h : ∀ c ∈ cs, ∃ v, ev c.1 env = .ok v ∧ exprEq v (Expr.id "true") = false) :
    evalCasesFrom ev all cs env = .error (.noMatch env all) := by
  have := evalCasesFrom_skip ev all cs [] env h
  simpa [evalCasesFrom] using this

/-- C4 counterexample: the claim selects a case only when its condition
evaluates to the *identifier* `true` and demands `NoMatchError` when no
condition does.  But `Case.matches` compares with Python `==`, under
which the *string* `"true"` equals the identifier `true`; a guard list
whose single condition is the string literal `"true"` — whose value is
not the identifier `true` — is selected instead of failing. -/
theorem c4_counterexample :
    eval 2 (.cases [(Expr.str "true", Expr.num 7)]) [] = .ok (Expr.num 7) ∧
    eval 2 (Expr.str "true") [] = .ok (Expr.str "true") ∧
    Expr.str "true" ≠ Expr.id "true" :=
  ⟨rfl, rfl, by simp⟩

/-- C4 (amended): cases are tried in declaration order; the first case
whose condition evaluates to a value equal — under the interpreter's
equality, which also accepts the string `"true"` — to the identifier
`true` has its body evaluated under the same environment, the later cases
being ignored; and when every case's condition evaluates to a
non-matching value, evaluation fails with the no-match error naming the
environment and the full guard list. -/
theorem c4_theorem (fuel : Nat) (env : Env) :
    (∀ (pre : List (Expr × Expr)) (cond body : Expr)
       (rest : List (Expr × Expr)),
       (∀ c ∈ pre, ∃ v, eval fuel c.1 env = .ok v ∧
          exprEq v (Expr.id "true") = false) →
       (∃ v, eval fuel cond env = .ok v ∧ exprEq v (Expr.id "true") = true) →
       eval (fuel + 1) (.cases (pre ++ (cond, body) :: rest)) env
         = eval fuel body env) ∧
    (∀ cs : List (Expr × Expr),
       (∀ c ∈ cs, ∃ v, eval fuel c.1 env = .ok v ∧
          exprEq v (Expr.id "true") = false) →
       eval (fuel + 1) (.cases cs) env = .error (.noMatch env cs)) := by
  refine ⟨?_, ?_⟩
  · intro pre cond body rest hpre hcond
    obtain ⟨v, hv, htrue⟩ := hcond
    show evalCasesFrom (eval fuel) (pre ++ (cond, body) :: rest)
        (pre ++ (cond, body) :: rest) env = eval fuel body env
    rw [evalCasesFrom_skip (eval fuel) _ pre _ env hpre]
    simp [evalCasesFrom, hv, htrue]
  · intro cs h
    exact evalCasesFrom_exhausted (eval fuel) cs cs env h

/-- C4 witness: with guards `| nope = 1 | true = 2 | 0 = 3` the second
case is selected (the first fails, the third is never reached), and the
guard list consisting only of the failing case exhausts into the
no-match error. -/
theorem c4_witness :
    eval 2 (.cases [(Expr.id "nope", Expr.num 1), (Expr.id "true", Expr.num 2),
        (Expr.num 0, Expr.num 3)]) [] = eval 1 (Expr.num 2) [] ∧
    eval 2 (.cases [(Expr.id "nope", Expr.num 1)]) []
      = .error (.noMatch [] [(Expr.id "nope", Expr.num 1)]) :=
  ⟨(c4_theorem 1 []).1 [(Expr.id "nope", Expr.num 1)] (Expr.id "true")
      (Expr.num 2) [(Expr.num 0, Expr.num 3)]
      (by intro c hc
          simp only [List.mem_singleton] at hc
          subst hc
          exact ⟨Expr.id "nope", rfl, rfl⟩)
      ⟨Expr.id "true", rfl, rfl⟩,
   (c4_theorem 1 []).2 [(Expr.id "nope", Expr.num 1)]
      (by intro c hc
          simp only [List.mem_singleton] at hc
          subst hc
          exact ⟨Expr.id "nope", rfl, rfl⟩)⟩

/-! ## Claim C2: dynamic scoping of function application -/

/-- Lookup in a concatenation finds a binding of the front part first. -/
theorem lookupEnv_append_some {A : Env} {x v : Expr}
    (h : lookupEnv A x = some v) (B : Env) :
    lookupEnv (A ++ B) x = some v := by
  induction A with
  | nil => simp [lookupEnv] at h
  | cons kv rest ih =>
    obtain ⟨k, w⟩ := kv
    cases hk : exprEq x k with
    | true => simp_all [lookupEnv]
    | false => simp_all [lookupEnv]

/-- Lookup in a concatenation falls through to the back part when the
front part has no binding for the key. -/
theorem lookupEnv_append_none {A : Env} {x : Expr}
    (h : lookupEnv A x = none) (B : Env) :
    lookupEnv (A ++ B) x = lookupEnv B x := by
  induction A with
  | nil => rfl
  | cons kv rest ih =>
    obtain ⟨k, w⟩ := kv
    cases hk : exprEq x k with
    | true => simp_all [lookupEnv]
    | false => simp_all [lookupEnv]

/-- A key equal to no key of the list is unbound. -/
theorem lookupEnv_none_of_forall {L : Env} {x : Expr}
    (h : ∀ kv ∈ L, exprEq x kv.1 = false) :
    lookupEnv L x = none := by
  induction L with
  | nil => rfl
  | cons kv rest ih =>
    obtain ⟨k, w⟩ := kv
    have hk : exprEq x k = false := h (k, w) (by simp)
    simp only [lookupEnv, hk, Bool.false_eq_true, if_false]
    exact ih fun kv hkv => h kv (by simp [hkv])

/-- In the parameter table built by `Pars.table` from distinct parameter
names, each parameter is bound to the argument value at its own
position. -/
theorem lookup_parsTable (ps : List String) (vs : List Expr)
    (hnd : ps.Nodup) (hlen : ps.length = vs.length)
    (i : Nat) (hip : i < ps.length) (hiv : i < vs.length) :
    lookupEnv (((ps.map Expr.id).zip vs).reverse) (Expr.id (ps.get ⟨i, hip⟩))
      = some (vs.get ⟨i, hiv⟩) := by
  induction ps generalizing vs i with
  | nil => simp at hip
  | cons p ps ih =>
    cases vs with
    | nil => simp at hiv
    | cons v vs =>
      have hzip : ((p :: ps).map Expr.id).zip (v :: vs)
          = (Expr.id p, v) :: (ps.map Expr.id).zip vs := rfl
      rw [hzip, List.reverse_cons]
      cases i with
      | zero =>
        show lookupEnv ((((ps.map Expr.id).zip vs).reverse)
            ++ [(Expr.id p, v)]) (Expr.id p) = some v
        have hp : p ∉ ps := (List.nodup_cons.mp hnd).1
        have hnone : lookupEnv (((ps.map Expr.id).zip vs).reverse)
            (Expr.id p) = none := by
          apply lookupEnv_none_of_forall
          intro kv hkv
          have hmem := List.of_mem_zip (List.mem_reverse.mp hkv)
          obtain ⟨q, hq, hkq⟩ := List.mem_map.mp hmem.1
          rw [← hkq]
          show (p == q) = false
          exact beq_eq_false_iff_ne.mpr fun hpq => hp (hpq ▸ hq)
        rw [lookupEnv_append_none hnone]
        simp [lookupEnv, exprEq]
      | succ j =>
        have hjp : j < ps.length := by simpa using hip
        have hjv : j < vs.length := by simpa using hiv
        have h2 := ih vs (List.nodup_cons.mp hnd).2
          (by simpa using hlen) j hjp hjv
        show lookupEnv ((((ps.map Expr.id).zip vs).reverse)
            ++ [(Expr.id p, v)]) (Expr.id (ps.get ⟨j, hjp⟩))
          = some (vs.get ⟨j, hjv⟩)
        exact lookupEnv_append_some h2 [(Expr.id p, v)]

/-- C2: applying a `Fn` with matching argument count evaluates the body
under the *caller's* environment `E` extended in front with the
positional parameter bindings of `Pars.table` — the parameter bindings
shadow any same-named binding of `E` because lookup meets them first,
and each distinct parameter is bound to the argument value at its own
position.  The `fn` value carries no environment of its own (exactly as
`Fn.__init__` stores only `pars` and `body`), so `E` can only be the
environment of the call site, never one captured at the definition
site; the extension is a fresh list and `E` itself is unchanged. -/
theorem c2_theorem (fuel : Nat) (pars : List String) (body : Expr)
    (argVals : List Expr) (E : Env)
    (hlen : pars.length = argVals.length) (hnd : pars.Nodup) :
    applyVal (eval fuel) (.fn pars body) argVals E
      = eval fuel body
          (unionEnv E (((pars.map Expr.id).zip argVals).reverse)) ∧
    ∀ (i : Nat) (hip : i < pars.length) (hiv : i < argVals.length),
      lookupEnv (unionEnv E (((pars.map Expr.id).zip argVals).reverse))
        (Expr.id (pars.get ⟨i, hip⟩)) = some (argVals.get ⟨i, hiv⟩) := by
  refine ⟨?_, ?_⟩
  · simp [applyVal, parsTable, hlen]
  · intro i hip hiv
    exact lookupEnv_append_some
      (lookup_parsTable pars argVals hnd hlen i hip hiv) E

/-- C2 witness: a one-parameter function called on `42` from an
environment that binds `x` to `0` evaluates its body under the extended
environment, in which the parameter binding `x = 42` shadows the caller
binding `x = 0`. -/
theorem c2_witness :
    applyVal (eval 1) (.fn ["x"] (Expr.id "x")) [Expr.num 42]
        [(Expr.id "x", Expr.num 0)]
      = eval 1 (Expr.id "x")
          [(Expr.id "x", Expr.num 42), (Expr.id "x", Expr.num 0)] ∧
    lookupEnv [(Expr.id "x", Expr.num 42), (Expr.id "x", Expr.num 0)]
        (Expr.id "x") = some (Expr.num 42) := by
  have h := c2_theorem 1 ["x"] (Expr.id "x") [Expr.num 42]
    [(Expr.id "x", Expr.num 0)] rfl (by simp)
  exact ⟨h.1, h.2 0 (by decide) (by decide)⟩

end Efpl
